import Mathlib

/-!
Shallow embedding of `oauth-credentials-generator` (`src/index.ts`).

Strings are modelled as `List Char`; JS numbers that may be non-integral
(the numeric option fields) are modelled as `ℚ`; integer lengths as `Int`.
The process-wide cryptographically secure random source is modelled as an
infinite byte stream `Nat → Nat`, each draw normalised modulo 256; a call
to `crypto.randomBytes` reads a prefix of the stream and a second draw in
the same call continues where the first stopped.  Code that can throw is
modelled with `Except String`.
-/

/-- The TypeScript union type `EncodingFormat = "hex" | "base64" | "base64url"`. -/
inductive EncodingFormat where
  | hex
  | base64
  | base64url
deriving DecidableEq, Repr

/-- Models `Math.ceil(a / b)` for an integer `a` and a positive integer `b`. -/
def ceilDiv (a b : Int) : Int := (a + b - 1) / b

/-- The byte count computed at the top of `generateRandomString`:
`Math.ceil(length / 2)` for hex, `Math.ceil((length * 3) / 4) + 2` otherwise. -/
def bytesNeeded (length : Int) (encoding : EncodingFormat) : Int :=
  if encoding = .hex then ceilDiv length 2 else ceilDiv (length * 3) 4 + 2

/-- Models `crypto.randomBytes(n)`: the first `n` bytes of the random stream;
a negative size is rejected with a `RangeError` before any bytes exist. -/
def randomBytes (n : Int) (stream : Nat → Nat) : Except String (List Nat) :=
  if n < 0 then .error "The value of size is out of range"
  else .ok ((List.range n.toNat).map (fun i => stream i % 256))

/-- Models `Buffer.toString("hex")`: two lowercase hexadecimal digits per byte. -/
def hexEncode : List Nat → List Char
  | [] => []
  | b :: rest => Nat.digitChar (b / 16) :: Nat.digitChar (b % 16) :: hexEncode rest

/-- The standard base64 alphabet, in index order. -/
def base64Alphabet : List Char :=
  "ABCDEFGHIJKLMNOPQRSTUVWXYZabcdefghijklmnopqrstuvwxyz0123456789+/".data

/-- Look up one 6-bit group in the base64 alphabet. -/
def base64Char (n : Nat) : Char := base64Alphabet.getD n 'A'

/-- Models `Buffer.toString("base64")`: standard base64 with `=` padding, encoding
three bytes into four characters and padding a short final group. -/
def base64Encode : List Nat → List Char
  | [] => []
  | [b1] => [base64Char (b1 / 4), base64Char (b1 % 4 * 16), '=', '=']
  | [b1, b2] => [base64Char (b1 / 4), base64Char (b1 % 4 * 16 + b2 / 16),
      base64Char (b2 % 16 * 4), '=']
  | b1 :: b2 :: b3 :: rest =>
      base64Char (b1 / 4) :: base64Char (b1 % 4 * 16 + b2 / 16) ::
      base64Char (b2 % 16 * 4 + b3 / 64) :: base64Char (b3 % 64) :: base64Encode rest

/-- Models `.replace(/\+/g, "-")`, on one character. -/
def plusToDash (c : Char) : Char := if c = '+' then '-' else c

/-- Models `.replace(/\//g, "_")`, on one character. -/
def slashToUnderscore (c : Char) : Char := if c = '/' then '_' else c

/-- The base64url branch of `generateRandomString` before truncation:
`.toString("base64").replace(/\+/g, "-").replace(/\//g, "_").replace(/=/g, "")`. -/
def base64UrlEncode (bs : List Nat) : List Char :=
  (((base64Encode bs).map plusToDash).map slashToUnderscore).filter (fun c => c != '=')

/-- Models `String.prototype.substring(0, e)`: the end index is clamped below at 0
and above at the string length. -/
def jsSubstringTo (l : List Char) (e : Int) : List Char := l.take e.toNat

/-- Translation of `generateRandomString(length, encoding = "hex")` from `src/index.ts`:
compute the byte count, draw that many random bytes, encode, and truncate
to the first `length` characters.  The default encoding is `"hex"`. -/
def generateRandomString (length : Int) (stream : Nat → Nat)
    (encoding : EncodingFormat := .hex) : Except String (List Char) :=
  match randomBytes (bytesNeeded length encoding) stream with
  | .error e => .error e
  | .ok bs =>
    match encoding with
    | .base64url => .ok (jsSubstringTo (base64UrlEncode bs) length)
    | .hex => .ok (jsSubstringTo (hexEncode bs) length)
    | .base64 => .ok (jsSubstringTo (base64Encode bs) length)

/-- The `OAuthCredentialsOptions` interface: every field optional. -/
structure OAuthCredentialsOptions where
  idPrefix : Option (List Char) := none
  idLength : Option ℚ := none
  secretLength : Option ℚ := none
  encoding : Option (List Char) := none

/-- The `OAuthCredentials` result interface. -/
structure OAuthCredentials where
  clientId : List Char
  clientSecret : List Char
deriving DecidableEq, Repr

/-- Models `Number.isInteger` on a (rational-valued) JS number. -/
def isInteger (q : ℚ) : Prop := q.den = 1

instance (q : ℚ) : Decidable (isInteger q) :=
  inferInstanceAs (Decidable (q.den = 1))

/-- The effective `idPrefix` after destructuring with default `"oauth"`. -/
def effIdPrefix (o : OAuthCredentialsOptions) : List Char :=
  o.idPrefix.getD "oauth".data

/-- The effective `idLength` after destructuring with default `24`. -/
def effIdLength (o : OAuthCredentialsOptions) : ℚ :=
  o.idLength.getD 24

/-- The effective `secretLength` after destructuring with default `48`. -/
def effSecretLength (o : OAuthCredentialsOptions) : ℚ :=
  o.secretLength.getD 48

/-- The effective `encoding` after destructuring with default `"base64url"`. -/
def effEncoding (o : OAuthCredentialsOptions) : List Char :=
  o.encoding.getD "base64url".data

/-- Translation of `const validEncodings: EncodingFormat[]` from the source. -/
def validEncodings : List (List Char) :=
  ["hex".data, "base64".data, "base64url".data]

/-- Interpret a validated encoding string as the `EncodingFormat` it denotes. -/
def toEncodingFormat (s : List Char) : EncodingFormat :=
  if s = "hex".data then .hex
  else if s = "base64".data then .base64
  else .base64url

/-- Translation of `generateOAuthCredentials(options)` from `src/index.ts`: substitute
defaults, validate in the order idPrefix, idLength, secretLength, encoding,
then call the generator twice on the shared random stream and compose
`clientId` as prefix, underscore, random suffix. -/
def generateOAuthCredentials (options : OAuthCredentialsOptions)
    (stream : Nat → Nat) : Except String OAuthCredentials :=
  if (effIdPrefix options).length = 0 then
    .error "idPrefix must be a non-empty string"
  else if ¬ isInteger (effIdLength options) ∨ effIdLength options < 1 then
    .error "idLength must be a positive integer"
  else if ¬ isInteger (effSecretLength options) ∨ effSecretLength options < 1 then
    .error "secretLength must be a positive integer"
  else if effEncoding options ∉ validEncodings then
    .error "encoding must be one of: hex, base64, base64url"
  else
    let enc := toEncodingFormat (effEncoding options)
    match generateRandomString (effIdLength options).num stream enc with
    | .error e => .error e
    | .ok idPart =>
      match generateRandomString (effSecretLength options).num
          (fun i => stream ((bytesNeeded (effIdLength options).num enc).toNat + i)) enc with
      | .error e => .error e
      | .ok secret => .ok ⟨effIdPrefix options ++ '_' :: idPart, secret⟩

theorem sample_hex_zero : generateRandomString 0 (fun _ => 0) .hex = .ok [] := by rfl

theorem sample_hex_ff : generateRandomString 4 (fun _ => 255) .hex = .ok "ffff".data := by rfl

theorem sample_base64_zero : generateRandomString 4 (fun _ => 0) .base64 = .ok "AAAA".data := by rfl

theorem sample_base64url : generateRandomString 3 (fun _ => 251) .base64url = .ok "-_v".data := by rfl

/-! ### Helper lemmas about the encoders -/

theorem List.getD_mem_or {α : Type} (l : List α) (n : Nat) (d : α) :
    l.getD n d = d ∨ l.getD n d ∈ l := by
  induction l generalizing n with
  | nil => left; rfl
  | cons a t ih =>
    cases n with
    | zero => right; simp [List.getD]
    | succ m =>
      have hstep : (a :: t).getD (m + 1) d = t.getD m d := by simp [List.getD]
      rcases ih m with h | h
      · left; rw [hstep, h]
      · right; rw [hstep]; exact List.mem_cons_of_mem a h

theorem base64Char_mem (n : Nat) : base64Char n ∈ base64Alphabet := by
  rcases List.getD_mem_or base64Alphabet n 'A' with h | h
  · rw [base64Char, h]; decide
  · exact h

theorem pad_not_mem_base64Alphabet : '=' ∉ base64Alphabet := by decide

theorem hexEncode_length (bs : List Nat) : (hexEncode bs).length = 2 * bs.length := by
  induction bs with
  | nil => rfl
  | cons b rest ih => simp [hexEncode, ih]; omega

theorem digitChar_mem_hex : ∀ n, n < 16 →
    Nat.digitChar n ∈ "0123456789abcdef".data := by decide

theorem hexEncode_mem (bs : List Nat) (hb : ∀ b ∈ bs, b < 256) :
    ∀ c ∈ hexEncode bs, c ∈ "0123456789abcdef".data := by
  induction bs with
  | nil => intro c hc; simp [hexEncode] at hc
  | cons b rest ih =>
    intro c hc
    have hblt : b < 256 := hb b (by simp)
    rcases hc with _ | ⟨_, hc⟩
    · exact digitChar_mem_hex _ (by omega)
    · rcases hc with _ | ⟨_, hc⟩
      · exact digitChar_mem_hex _ (by omega)
      · exact ih (fun x hx => hb x (List.mem_cons_of_mem b hx)) c hc

theorem base64Encode_parts : ∀ l : List Nat, ∃ u v : List Char,
    base64Encode l = u ++ v ∧ u.length = (4 * l.length + 2) / 3 ∧
    (∀ c ∈ u, c ∈ base64Alphabet) ∧ (∀ c ∈ v, c = '=')
  | [] => ⟨[], [], rfl, rfl, by simp, by simp⟩
  | [b1] => by
    refine ⟨[base64Char (b1 / 4), base64Char (b1 % 4 * 16)], ['=', '='],
      rfl, by norm_num, ?_, by decide⟩
    intro c hc
    simp only [List.mem_cons, List.not_mem_nil, or_false] at hc
    rcases hc with rfl | rfl
    · exact base64Char_mem _
    · exact base64Char_mem _
  | [b1, b2] => by
    refine ⟨[base64Char (b1 / 4), base64Char (b1 % 4 * 16 + b2 / 16),
      base64Char (b2 % 16 * 4)], ['='], rfl, by norm_num, ?_, by decide⟩
    intro c hc
    simp only [List.mem_cons, List.not_mem_nil, or_false] at hc
    rcases hc with rfl | rfl | rfl
    · exact base64Char_mem _
    · exact base64Char_mem _
    · exact base64Char_mem _
  | b1 :: b2 :: b3 :: rest => by
    obtain ⟨u, v, he, hlen, hu, hv⟩ := base64Encode_parts rest
    refine ⟨base64Char (b1 / 4) :: base64Char (b1 % 4 * 16 + b2 / 16) ::
        base64Char (b2 % 16 * 4 + b3 / 64) :: base64Char (b3 % 64) :: u, v, ?_, ?_, ?_, hv⟩
    · simp [base64Encode, he]
    · simp only [List.length_cons, hlen]
      omega
    · intro c hc
      simp only [List.mem_cons] at hc
      rcases hc with rfl | rfl | rfl | rfl | hc
      · exact base64Char_mem _
      · exact base64Char_mem _
      · exact base64Char_mem _
      · exact base64Char_mem _
      · exact hu c hc

/-- The base64url alphabet: the base64 alphabet with `+` and `/` replaced
by `-` and `_`. -/
def base64UrlAlphabet : List Char :=
  "ABCDEFGHIJKLMNOPQRSTUVWXYZabcdefghijklmnopqrstuvwxyz0123456789-_".data

theorem url_char_ok : ∀ c ∈ base64Alphabet,
    slashToUnderscore (plusToDash c) ∈ base64UrlAlphabet ∧
    slashToUnderscore (plusToDash c) ≠ '=' := by decide

theorem base64UrlEncode_parts (l : List Nat) :
    ∃ w : List Char, base64UrlEncode l = w ∧ w.length = (4 * l.length + 2) / 3 ∧
      ∀ c ∈ w, c ∈ base64UrlAlphabet := by
  obtain ⟨u, v, he, hlen, hu, hv⟩ := base64Encode_parts l
  refine ⟨u.map (fun c => slashToUnderscore (plusToDash c)), ?_, ?_, ?_⟩
  · rw [base64UrlEncode, he, List.map_append, List.map_append, List.filter_append,
      List.map_map, List.map_map]
    have h1 : (u.map (slashToUnderscore ∘ plusToDash)).filter (fun c => c != '=') =
        u.map (slashToUnderscore ∘ plusToDash) := by
      rw [List.filter_eq_self]
      intro c hc
      simp only [List.mem_map, Function.comp] at hc
      obtain ⟨c1, hc1, rfl⟩ := hc
      simpa using (url_char_ok c1 (hu c1 hc1)).2
    have h2 : (v.map (slashToUnderscore ∘ plusToDash)).filter (fun c => c != '=') = [] := by
      rw [List.filter_eq_nil_iff]
      intro c hc
      simp only [List.mem_map, Function.comp] at hc
      obtain ⟨c1, hc1, rfl⟩ := hc
      rw [hv c1 hc1]
      decide
    rw [h1, h2, List.append_nil]
    rfl
  · rw [List.length_map, hlen]
  · intro c hc
    simp only [List.mem_map] at hc
    obtain ⟨c1, hc1, rfl⟩ := hc
    exact (url_char_ok c1 (hu c1 hc1)).1

/-- The concrete byte list a call to `crypto.randomBytes(n)` yields from the
stream. -/
def drawn (n : Nat) (s : Nat → Nat) : List Nat :=
  (List.range n).map (fun i => s i % 256)

theorem randomBytes_eq_drawn (n : Int) (hn : 0 ≤ n) (s : Nat → Nat) :
    randomBytes n s = .ok (drawn n.toNat s) := by
  rw [randomBytes, if_neg (by omega)]
  rfl

theorem drawn_length (n : Nat) (s : Nat → Nat) : (drawn n s).length = n := by
  simp [drawn]

theorem drawn_lt (n : Nat) (s : Nat → Nat) : ∀ b ∈ drawn n s, b < 256 := by
  intro b hb
  simp only [drawn, List.mem_map] at hb
  obtain ⟨i, _, rfl⟩ := hb
  omega

theorem drawn_congr (n : Nat) (s₁ s₂ : Nat → Nat) (h : ∀ i < n, s₁ i = s₂ i) :
    drawn n s₁ = drawn n s₂ := by
  unfold drawn
  apply List.map_congr_left
  intro i hi
  rw [h i (List.mem_range.mp hi)]

theorem generateRandomString_hex_eq (L : Int) (s : Nat → Nat)
    (h : 0 ≤ bytesNeeded L .hex) :
    generateRandomString L s .hex =
      .ok (jsSubstringTo (hexEncode (drawn (bytesNeeded L .hex).toNat s)) L) := by
  rw [generateRandomString, randomBytes_eq_drawn _ h]

theorem generateRandomString_base64_eq (L : Int) (s : Nat → Nat)
    (h : 0 ≤ bytesNeeded L .base64) :
    generateRandomString L s .base64 =
      .ok (jsSubstringTo (base64Encode (drawn (bytesNeeded L .base64).toNat s)) L) := by
  rw [generateRandomString, randomBytes_eq_drawn _ h]

theorem generateRandomString_base64url_eq (L : Int) (s : Nat → Nat)
    (h : 0 ≤ bytesNeeded L .base64url) :
    generateRandomString L s .base64url =
      .ok (jsSubstringTo (base64UrlEncode (drawn (bytesNeeded L .base64url).toNat s)) L) := by
  rw [generateRandomString, randomBytes_eq_drawn _ h]

theorem bytesNeeded_hex (L : Int) : bytesNeeded L .hex = (L + 1) / 2 := by
  simp [bytesNeeded, ceilDiv]
  omega

theorem bytesNeeded_base64 (L : Int) : bytesNeeded L .base64 = (L * 3 + 3) / 4 + 2 := by
  simp [bytesNeeded, ceilDiv]
  omega

theorem bytesNeeded_base64url (L : Int) : bytesNeeded L .base64url = (L * 3 + 3) / 4 + 2 := by
  simp [bytesNeeded, ceilDiv]
  omega

theorem bytesNeeded_nonneg (L : Int) (hL : 0 ≤ L) (enc : EncodingFormat) :
    0 ≤ bytesNeeded L enc := by
  rcases enc
  · rw [bytesNeeded_hex]; omega
  · rw [bytesNeeded_base64]; omega
  · rw [bytesNeeded_base64url]; omega

/-! ### Claims about the random string generator -/

theorem gRS_ok_length_of_pos (L : Int) (hL : 1 ≤ L)
    (enc : EncodingFormat) (s : Nat → Nat) :
    ∃ out, generateRandomString L s enc = .ok out ∧ out.length = L.toNat := by
  have hb := bytesNeeded_nonneg L (by omega) enc
  rcases enc
  · refine ⟨_, generateRandomString_hex_eq L s hb, ?_⟩
    rw [jsSubstringTo, List.length_take, hexEncode_length, drawn_length, bytesNeeded_hex]
    omega
  · obtain ⟨u, v, he, hlen, hu, hv⟩ :=
      base64Encode_parts (drawn (bytesNeeded L .base64).toNat s)
    refine ⟨_, generateRandomString_base64_eq L s hb, ?_⟩
    rw [jsSubstringTo, List.length_take, he, List.length_append, hlen, drawn_length,
      bytesNeeded_base64]
    omega
  · obtain ⟨w, hw, hwlen, hwmem⟩ :=
      base64UrlEncode_parts (drawn (bytesNeeded L .base64url).toNat s)
    refine ⟨_, generateRandomString_base64url_eq L s hb, ?_⟩
    rw [jsSubstringTo, List.length_take, hw, hwlen, drawn_length, bytesNeeded_base64url]
    omega

/-- C1: for every integer length ≥ 1 and every encoding among hex, base64 and
base64url, `generateRandomString(length, encoding)` succeeds and returns a
string of exactly `length` characters. -/
theorem c1_generateRandomString_exact_length (L : Int) (hL : 1 ≤ L)
    (enc : EncodingFormat) (s : Nat → Nat) :
    ∃ out, generateRandomString L s enc = .ok out ∧ out.length = L.toNat :=
  gRS_ok_length_of_pos L hL enc s

/-- Witness for C1 at length 2, base64url, the all-zero stream. -/
theorem c1_witness : (1 : Int) ≤ 2 ∧
    ∃ out, generateRandomString 2 (fun _ => 0) .base64url = .ok out ∧
      out.length = (2 : Int).toNat :=
  ⟨by decide, c1_generateRandomString_exact_length 2 (by decide) .base64url (fun _ => 0)⟩

/-- C2 counterexample: at the non-positive length 0 (hex encoding),
`generateRandomString` does not reject the call with an input-validation
error; it returns the empty string. -/
theorem c2_counterexample :
    generateRandomString 0 (fun _ => 0) .hex = .ok [] := rfl

theorem gRS_ok_of_nonneg (L : Int) (hL : 0 ≤ L)
    (enc : EncodingFormat) (s : Nat → Nat) :
    ∃ out, generateRandomString L s enc = .ok out := by
  have hb := bytesNeeded_nonneg L hL enc
  rcases enc
  · exact ⟨_, generateRandomString_hex_eq L s hb⟩
  · exact ⟨_, generateRandomString_base64_eq L s hb⟩
  · exact ⟨_, generateRandomString_base64url_eq L s hb⟩

/-- C2 amended: `generateRandomString` performs no length validation; for
every non-negative integer length and every encoding it succeeds (length 0
included), rather than rejecting non-positive lengths. -/
theorem c2_amended_no_length_validation (L : Int) (hL : 0 ≤ L)
    (enc : EncodingFormat) (s : Nat → Nat) :
    ∃ out, generateRandomString L s enc = .ok out :=
  gRS_ok_of_nonneg L hL enc s

/-- Witness for the amended C2 at length 0, base64, an arbitrary stream. -/
theorem c2_amended_witness : (0 : Int) ≤ 0 ∧
    ∃ out, generateRandomString 0 (fun _ => 1) .base64 = .ok out :=
  ⟨by decide, c2_amended_no_length_validation 0 (by decide) .base64 (fun _ => 1)⟩

/-- C10: `generateRandomString(0, "hex")` computes a byte count of zero and
returns the empty string without raising any error, for every stream. -/
theorem c10_zero_length_hex_empty (s : Nat → Nat) :
    generateRandomString 0 s .hex = .ok [] ∧ bytesNeeded 0 .hex = 0 :=
  ⟨rfl, rfl⟩

/-- C9: for every integer length ≥ 1, the truncated base64 output contains
no `=` padding character: the +2-byte margin pushes all padding beyond the
truncation point. -/
theorem c9_base64_truncation_padding_free (L : Int) (hL : 1 ≤ L) (s : Nat → Nat) :
    ∃ out, generateRandomString L s .base64 = .ok out ∧ '=' ∉ out := by
  have hb := bytesNeeded_nonneg L (by omega) .base64
  obtain ⟨u, v, he, hlen, hu, hv⟩ :=
    base64Encode_parts (drawn (bytesNeeded L .base64).toNat s)
  refine ⟨_, generateRandomString_base64_eq L s hb, ?_⟩
  rw [jsSubstringTo, he]
  have hle : L.toNat ≤ u.length := by
    rw [hlen, drawn_length, bytesNeeded_base64]
    omega
  rw [List.take_append_of_le_length hle]
  intro hmem
  exact pad_not_mem_base64Alphabet (hu '=' (List.mem_of_mem_take hmem))

/-- Witness for C9 at length 4 and the all-255 stream (which produces
`////` before any padding). -/
theorem c9_witness : (1 : Int) ≤ 4 ∧
    ∃ out, generateRandomString 4 (fun _ => 255) .base64 = .ok out ∧ '=' ∉ out :=
  ⟨by decide, c9_base64_truncation_padding_free 4 (by decide) (fun _ => 255)⟩

/-- C3: for every integer length ≥ 1, hex output uses only `[0-9a-f]` and
base64url output uses only `[A-Za-z0-9_-]`, never `+`, `/` or `=`. -/
theorem c3_output_charsets (L : Int) (hL : 1 ≤ L) (s : Nat → Nat) :
    (∃ out, generateRandomString L s .hex = .ok out ∧
      ∀ c ∈ out, c ∈ "0123456789abcdef".data) ∧
    (∃ out, generateRandomString L s .base64url = .ok out ∧
      ∀ c ∈ out, c ∈ base64UrlAlphabet ∧ c ≠ '+' ∧ c ≠ '/' ∧ c ≠ '=') := by
  have h0 : (0 : Int) ≤ L := by omega
  constructor
  · refine ⟨_, generateRandomString_hex_eq L s (bytesNeeded_nonneg L h0 .hex), ?_⟩
    intro c hc
    rw [jsSubstringTo] at hc
    exact hexEncode_mem _ (drawn_lt _ s) c (List.mem_of_mem_take hc)
  · obtain ⟨w, hw, hwlen, hwmem⟩ :=
      base64UrlEncode_parts (drawn (bytesNeeded L .base64url).toNat s)
    refine ⟨_, generateRandomString_base64url_eq L s (bytesNeeded_nonneg L h0 .base64url), ?_⟩
    intro c hc
    rw [jsSubstringTo, hw] at hc
    have hm := hwmem c (List.mem_of_mem_take hc)
    refine ⟨hm, ?_, ?_, ?_⟩ <;>
      · intro hEq
        subst hEq
        revert hm
        decide

/-- Witness for C3 at length 1 and the all-zero stream. -/
theorem c3_witness : (1 : Int) ≤ 1 ∧
    ((∃ out, generateRandomString 1 (fun _ => 0) .hex = .ok out ∧
      ∀ c ∈ out, c ∈ "0123456789abcdef".data) ∧
    (∃ out, generateRandomString 1 (fun _ => 0) .base64url = .ok out ∧
      ∀ c ∈ out, c ∈ base64UrlAlphabet ∧ c ≠ '+' ∧ c ≠ '/' ∧ c ≠ '=')) :=
  ⟨by decide, c3_output_charsets 1 (by decide) (fun _ => 0)⟩

theorem ceil_intCast_div_two (a : Int) : ⌈(a : ℚ) / 2⌉ = (a + 1) / 2 := by
  rw [Int.ceil_eq_iff]
  constructor
  · rw [lt_div_iff₀ (by norm_num : (0 : ℚ) < 2)]
    have h : ((a + 1) / 2 - 1) * 2 < a := by omega
    exact_mod_cast h
  · rw [div_le_iff₀ (by norm_num : (0 : ℚ) < 2)]
    have h : a ≤ (a + 1) / 2 * 2 := by omega
    exact_mod_cast h

theorem ceil_intCast_mul_three_div_four (a : Int) :
    ⌈(a : ℚ) * 3 / 4⌉ = (a * 3 + 3) / 4 := by
  rw [Int.ceil_eq_iff]
  constructor
  · rw [lt_div_iff₀ (by norm_num : (0 : ℚ) < 4)]
    have h : ((a * 3 + 3) / 4 - 1) * 4 < a * 3 := by omega
    exact_mod_cast h
  · rw [div_le_iff₀ (by norm_num : (0 : ℚ) < 4)]
    have h : a * 3 ≤ (a * 3 + 3) / 4 * 4 := by omega
    exact_mod_cast h

/-- C4: the generator draws exactly `ceil(length / 2)` random bytes for hex
and exactly `ceil(length * 3 / 4) + 2` for base64 and base64url; the output
depends on no stream byte beyond that count. -/
theorem c4_bytes_drawn (L : Int) (hL : 1 ≤ L) :
    bytesNeeded L .hex = ⌈(L : ℚ) / 2⌉ ∧
    bytesNeeded L .base64 = ⌈(L : ℚ) * 3 / 4⌉ + 2 ∧
    bytesNeeded L .base64url = ⌈(L : ℚ) * 3 / 4⌉ + 2 ∧
    ∀ enc : EncodingFormat, ∀ s₁ s₂ : Nat → Nat,
      (∀ i, i < (bytesNeeded L enc).toNat → s₁ i = s₂ i) →
      generateRandomString L s₁ enc = generateRandomString L s₂ enc := by
  refine ⟨by rw [bytesNeeded_hex, ceil_intCast_div_two],
    by rw [bytesNeeded_base64, ceil_intCast_mul_three_div_four],
    by rw [bytesNeeded_base64url, ceil_intCast_mul_three_div_four], ?_⟩
  intro enc s₁ s₂ hag
  have hb := bytesNeeded_nonneg L (by omega) enc
  have hd : drawn (bytesNeeded L enc).toNat s₁ = drawn (bytesNeeded L enc).toNat s₂ :=
    drawn_congr _ _ _ hag
  rcases enc
  · rw [generateRandomString_hex_eq L s₁ hb, generateRandomString_hex_eq L s₂ hb, hd]
  · rw [generateRandomString_base64_eq L s₁ hb, generateRandomString_base64_eq L s₂ hb, hd]
  · rw [generateRandomString_base64url_eq L s₁ hb,
      generateRandomString_base64url_eq L s₂ hb, hd]

/-- Witness for C4 at length 5: 3 bytes for hex, 6 for the base64 variants. -/
theorem c4_witness : (1 : Int) ≤ 5 ∧
    bytesNeeded 5 .hex = ⌈(5 : ℚ) / 2⌉ ∧ bytesNeeded 5 .base64 = ⌈(5 : ℚ) * 3 / 4⌉ + 2 :=
  ⟨by decide, (c4_bytes_drawn 5 (by decide)).1, (c4_bytes_drawn 5 (by decide)).2.1⟩

/-! ### Claims about the credential assembler -/

theorem one_le_num_of_integer (q : ℚ) (hd : isInteger q) (h1 : 1 ≤ q) : 1 ≤ q.num := by
  rw [isInteger, Rat.den_eq_one_iff] at hd
  rw [← hd] at h1
  exact_mod_cast h1

theorem invalid_length_iff (q : ℚ) :
    (¬ isInteger q ∨ q < 1) ↔ ¬(isInteger q ∧ 1 ≤ q) := by
  rw [not_and_or, not_le]

theorem generateOAuthCredentials_ok (o : OAuthCredentialsOptions) (s : Nat → Nat)
    (h1 : (effIdPrefix o).length ≠ 0)
    (h2 : isInteger (effIdLength o) ∧ 1 ≤ effIdLength o)
    (h3 : isInteger (effSecretLength o) ∧ 1 ≤ effSecretLength o)
    (h4 : effEncoding o ∈ validEncodings) :
    ∃ idPart secret,
      generateRandomString (effIdLength o).num s (toEncodingFormat (effEncoding o)) =
        .ok idPart ∧
      generateRandomString (effSecretLength o).num
        (fun i => s ((bytesNeeded (effIdLength o).num
          (toEncodingFormat (effEncoding o))).toNat + i))
        (toEncodingFormat (effEncoding o)) = .ok secret ∧
      generateOAuthCredentials o s = .ok ⟨effIdPrefix o ++ '_' :: idPart, secret⟩ ∧
      idPart.length = (effIdLength o).num.toNat ∧
      secret.length = (effSecretLength o).num.toNat := by
  have hid : 1 ≤ (effIdLength o).num := one_le_num_of_integer _ h2.1 h2.2
  have hsec : 1 ≤ (effSecretLength o).num := one_le_num_of_integer _ h3.1 h3.2
  obtain ⟨idPart, hidp, hidlen⟩ :=
    gRS_ok_length_of_pos _ hid (toEncodingFormat (effEncoding o)) s
  obtain ⟨secret, hsecp, hseclen⟩ :=
    gRS_ok_length_of_pos _ hsec (toEncodingFormat (effEncoding o))
      (fun i => s ((bytesNeeded (effIdLength o).num
        (toEncodingFormat (effEncoding o))).toNat + i))
  refine ⟨idPart, secret, hidp, hsecp, ?_, hidlen, hseclen⟩
  rw [generateOAuthCredentials, if_neg h1,
    if_neg ((invalid_length_iff _).not.mpr (not_not_intro h2)),
    if_neg ((invalid_length_iff _).not.mpr (not_not_intro h3)),
    if_neg (not_not_intro h4)]
  simp only [hidp, hsecp]

/-- C5: `generateOAuthCredentials` raises a validation error exactly when,
after defaults, the effective idPrefix is empty, an effective length is not
an integer ≥ 1, or the effective encoding is not one of the three accepted
values; every raised message is one of the four documented ones. -/
theorem c5_validation_iff (o : OAuthCredentialsOptions) (s : Nat → Nat) :
    ((∃ e, generateOAuthCredentials o s = .error e) ↔
      ((effIdPrefix o).length = 0 ∨
       ¬(isInteger (effIdLength o) ∧ 1 ≤ effIdLength o) ∨
       ¬(isInteger (effSecretLength o) ∧ 1 ≤ effSecretLength o) ∨
       effEncoding o ∉ validEncodings)) ∧
    ∀ e, generateOAuthCredentials o s = .error e →
      e = "idPrefix must be a non-empty string" ∨
      e = "idLength must be a positive integer" ∨
      e = "secretLength must be a positive integer" ∨
      e = "encoding must be one of: hex, base64, base64url" := by
  by_cases h1 : (effIdPrefix o).length = 0
  · rw [generateOAuthCredentials, if_pos h1]
    exact ⟨⟨fun _ => Or.inl h1, fun _ => ⟨_, rfl⟩⟩,
      fun e he => Or.inl (Except.error.inj he).symm⟩
  · by_cases h2 : ¬ isInteger (effIdLength o) ∨ effIdLength o < 1
    · rw [generateOAuthCredentials, if_neg h1, if_pos h2]
      exact ⟨⟨fun _ => Or.inr (Or.inl ((invalid_length_iff _).mp h2)), fun _ => ⟨_, rfl⟩⟩,
        fun e he => Or.inr (Or.inl (Except.error.inj he).symm)⟩
    · by_cases h3 : ¬ isInteger (effSecretLength o) ∨ effSecretLength o < 1
      · rw [generateOAuthCredentials, if_neg h1, if_neg h2, if_pos h3]
        exact ⟨⟨fun _ => Or.inr (Or.inr (Or.inl ((invalid_length_iff _).mp h3))),
          fun _ => ⟨_, rfl⟩⟩,
          fun e he => Or.inr (Or.inr (Or.inl (Except.error.inj he).symm))⟩
      · by_cases h4 : effEncoding o ∉ validEncodings
        · rw [generateOAuthCredentials, if_neg h1, if_neg h2, if_neg h3, if_pos h4]
          exact ⟨⟨fun _ => Or.inr (Or.inr (Or.inr h4)), fun _ => ⟨_, rfl⟩⟩,
            fun e he => Or.inr (Or.inr (Or.inr (Except.error.inj he).symm))⟩
        · obtain ⟨idPart, secret, _, _, hok, _, _⟩ :=
            generateOAuthCredentials_ok o s h1
              (not_not.mp ((invalid_length_iff _).not.mp h2))
              (not_not.mp ((invalid_length_iff _).not.mp h3))
              (not_not.mp h4)
          rw [hok]
          constructor
          · constructor
            · rintro ⟨e, he⟩
              exact absurd he (by simp)
            · rintro (h | h | h | h)
              · exact absurd h h1
              · exact absurd h ((invalid_length_iff _).not.mp h2)
              · exact absurd h ((invalid_length_iff _).not.mp h3)
              · exact absurd h h4
          · intro e he
            exact absurd he (by simp)

/-- Witness for C5: an empty idPrefix makes the call fail. -/
theorem c5_witness :
    ∃ e, generateOAuthCredentials ⟨some [], none, none, none⟩ (fun _ => 0) = .error e :=
  (c5_validation_iff ⟨some [], none, none, none⟩ (fun _ => 0)).1.mpr (Or.inl rfl)

/-- C6: the validation checks run in the fixed order idPrefix, idLength,
secretLength, encoding; the first failing check determines the message, and
a failing call reads no random bytes: its result does not depend on the
stream at all. -/
theorem c6_validation_order (o : OAuthCredentialsOptions) (s : Nat → Nat) :
    ((effIdPrefix o).length = 0 →
      generateOAuthCredentials o s = .error "idPrefix must be a non-empty string") ∧
    ((effIdPrefix o).length ≠ 0 →
      (¬ isInteger (effIdLength o) ∨ effIdLength o < 1) →
      generateOAuthCredentials o s = .error "idLength must be a positive integer") ∧
    ((effIdPrefix o).length ≠ 0 →
      ¬(¬ isInteger (effIdLength o) ∨ effIdLength o < 1) →
      (¬ isInteger (effSecretLength o) ∨ effSecretLength o < 1) →
      generateOAuthCredentials o s = .error "secretLength must be a positive integer") ∧
    ((effIdPrefix o).length ≠ 0 →
      ¬(¬ isInteger (effIdLength o) ∨ effIdLength o < 1) →
      ¬(¬ isInteger (effSecretLength o) ∨ effSecretLength o < 1) →
      effEncoding o ∉ validEncodings →
      generateOAuthCredentials o s =
        .error "encoding must be one of: hex, base64, base64url") ∧
    (∀ e, generateOAuthCredentials o s = .error e →
      ∀ s' : Nat → Nat, generateOAuthCredentials o s' = .error e) := by
  refine ⟨?_, ?_, ?_, ?_, ?_⟩
  · intro h1
    rw [generateOAuthCredentials, if_pos h1]
  · intro h1 h2
    rw [generateOAuthCredentials, if_neg h1, if_pos h2]
  · intro h1 h2 h3
    rw [generateOAuthCredentials, if_neg h1, if_neg h2, if_pos h3]
  · intro h1 h2 h3 h4
    rw [generateOAuthCredentials, if_neg h1, if_neg h2, if_neg h3, if_pos h4]
  · intro e he s'
    by_cases h1 : (effIdPrefix o).length = 0
    · rw [generateOAuthCredentials, if_pos h1] at he ⊢
      exact he
    · by_cases h2 : ¬ isInteger (effIdLength o) ∨ effIdLength o < 1
      · rw [generateOAuthCredentials, if_neg h1, if_pos h2] at he ⊢
        exact he
      · by_cases h3 : ¬ isInteger (effSecretLength o) ∨ effSecretLength o < 1
        · rw [generateOAuthCredentials, if_neg h1, if_neg h2, if_pos h3] at he ⊢
          exact he
        · by_cases h4 : effEncoding o ∉ validEncodings
          · rw [generateOAuthCredentials, if_neg h1, if_neg h2, if_neg h3, if_pos h4] at he ⊢
            exact he
          · obtain ⟨idPart, secret, _, _, hok, _, _⟩ :=
              generateOAuthCredentials_ok o s h1
                (not_not.mp ((invalid_length_iff _).not.mp h2))
                (not_not.mp ((invalid_length_iff _).not.mp h3))
                (not_not.mp h4)
            rw [hok] at he
            exact absurd he (by simp)

/-- Witness for C6: idLength 0 and secretLength 0 are both invalid, and the
reported error is the idLength one, the first failing check. -/
theorem c6_witness :
    generateOAuthCredentials ⟨none, some 0, some 0, none⟩ (fun _ => 0) =
      .error "idLength must be a positive integer" :=
  (c6_validation_order ⟨none, some 0, some 0, none⟩ (fun _ => 0)).2.1
    (by decide) (Or.inr (by norm_num [effIdLength]))

/-- C7: for valid options the result is a pair whose clientId is the
effective idPrefix, one underscore, and a random part of exactly idLength
characters, and whose clientSecret is the raw generator output of exactly
secretLength characters; both parts come from the same resolved encoding. -/
theorem c7_credential_composition (o : OAuthCredentialsOptions) (s : Nat → Nat)
    (h1 : (effIdPrefix o).length ≠ 0)
    (h2 : isInteger (effIdLength o) ∧ 1 ≤ effIdLength o)
    (h3 : isInteger (effSecretLength o) ∧ 1 ≤ effSecretLength o)
    (h4 : effEncoding o ∈ validEncodings) :
    ∃ idPart secret,
      generateRandomString (effIdLength o).num s (toEncodingFormat (effEncoding o)) =
        .ok idPart ∧
      generateRandomString (effSecretLength o).num
        (fun i => s ((bytesNeeded (effIdLength o).num
          (toEncodingFormat (effEncoding o))).toNat + i))
        (toEncodingFormat (effEncoding o)) = .ok secret ∧
      generateOAuthCredentials o s = .ok ⟨effIdPrefix o ++ '_' :: idPart, secret⟩ ∧
      idPart.length = (effIdLength o).num.toNat ∧
      secret.length = (effSecretLength o).num.toNat :=
  generateOAuthCredentials_ok o s h1 h2 h3 h4

/-- Witness for C7 at the all-default options and the all-zero stream. -/
theorem c7_witness :
    (effIdPrefix ⟨none, none, none, none⟩).length ≠ 0 ∧
    ∃ idPart secret,
      generateRandomString (effIdLength ⟨none, none, none, none⟩).num (fun _ => 0)
        (toEncodingFormat (effEncoding ⟨none, none, none, none⟩)) = .ok idPart ∧
      generateRandomString (effSecretLength ⟨none, none, none, none⟩).num
        (fun i => (fun _ => 0 : Nat → Nat)
          ((bytesNeeded (effIdLength ⟨none, none, none, none⟩).num
            (toEncodingFormat (effEncoding ⟨none, none, none, none⟩))).toNat + i))
        (toEncodingFormat (effEncoding ⟨none, none, none, none⟩)) = .ok secret ∧
      generateOAuthCredentials ⟨none, none, none, none⟩ (fun _ => 0) =
        .ok ⟨effIdPrefix ⟨none, none, none, none⟩ ++ '_' :: idPart, secret⟩ ∧
      idPart.length = (effIdLength ⟨none, none, none, none⟩).num.toNat ∧
      secret.length = (effSecretLength ⟨none, none, none, none⟩).num.toNat :=
  ⟨by decide, c7_credential_composition ⟨none, none, none, none⟩ (fun _ => 0)
    (by decide) (by decide) (by decide) (by decide)⟩

/-- C8: omitted options default independently to idPrefix "oauth",
idLength 24, secretLength 48 and encoding "base64url", while the
generator's own default encoding parameter is "hex", which differs from
the assembler's default. -/
theorem c8_defaults (o : OAuthCredentialsOptions) (s : Nat → Nat) (L : Int) :
    generateOAuthCredentials o s =
      generateOAuthCredentials
        ⟨some (effIdPrefix o), some (effIdLength o), some (effSecretLength o),
         some (effEncoding o)⟩ s ∧
    effIdPrefix ⟨none, none, none, none⟩ = "oauth".data ∧
    effIdLength ⟨none, none, none, none⟩ = 24 ∧
    effSecretLength ⟨none, none, none, none⟩ = 48 ∧
    effEncoding ⟨none, none, none, none⟩ = "base64url".data ∧
    generateRandomString L s = generateRandomString L s .hex ∧
    toEncodingFormat (effEncoding ⟨none, none, none, none⟩) = .base64url ∧
    EncodingFormat.hex ≠ EncodingFormat.base64url := by
  refine ⟨?_, rfl, rfl, rfl, rfl, rfl, by decide, by decide⟩
  rcases o with ⟨p, l, sl, e⟩
  cases p <;> cases l <;> cases sl <;> cases e <;> rfl
